import Mathlib

/-!
Verification of the schedule-to-interval extraction and calendar
reconciliation engine (`src/main.py`, `src/sync_gcal.py`).

Timestamps are modelled as minutes since midnight of an arbitrary day 0,
so a civil date `d` starts at minute `d * 1440`.  Durations in seconds are
minutes times 60.  Fallible remote calls are modelled by an environment
record giving the responses the remote service would return.
-/

/-- A clock-time literal `HH:MM` as captured by the regex `\d-digit:\d-digit`
and accepted by `strptime`, plus the special literal `24:00`. -/
structure TimeLit where
  h : Nat
  m : Nat
deriving DecidableEq, Repr

/-- Literals `strptime` accepts (`%H` below 24, `%M` below 60) together with
the special-cased `24:00`. -/
def validTL (t : TimeLit) : Prop := (t.h < 24 ∧ t.m < 60) ∨ (t.h = 24 ∧ t.m = 0)

instance (t : TimeLit) : Decidable (validTL t) := by
  unfold validTL
  exact inferInstance

/-- `main.py` `parse_time_aware`: `"24:00"` combines `date + 1 day` with
midnight; every other literal combines the target date with the parsed time. -/
def parse_time_aware (d : Nat) (t : TimeLit) : Nat :=
  if t.h = 24 ∧ t.m = 0 then (d + 1) * 1440 else d * 1440 + t.h * 60 + t.m

/-- Naive same-day combination of a date with a clock time (no wrap). -/
def naiveCombine (d : Nat) (t : TimeLit) : Nat := d * 1440 + t.h * 60 + t.m

/-- `main.py` lines 159-163: resolve both literals with `parse_time_aware`,
then advance the end by one day when `end_dt < start_dt`. -/
def resolveInterval (d : Nat) (s e : TimeLit) : Nat × Nat :=
  let sdt := parse_time_aware d s
  let edt := parse_time_aware d e
  if edt < sdt then (sdt, edt + 1440) else (sdt, edt)

/-- `main.py` lines 157-164: total blackout duration in seconds summed over
the extracted `(start, end)` literal pairs of one group section. -/
def totalOffSeconds (d : Nat) (ranges : List (TimeLit × TimeLit)) : Nat :=
  (ranges.map fun r =>
    ((resolveInterval d r.1 r.2).2 - (resolveInterval d r.1 r.2).1) * 60).sum

/-- `main.py` line 200: `percent_off = total_seconds / 86400 * 100`. -/
def percent_off (d : Nat) (ranges : List (TimeLit × TimeLit)) : ℚ :=
  (totalOffSeconds d ranges : ℚ) / 86400 * 100

/-! ## Signature engine (`get_intervals_signature`) -/

/-- Clock time `(hour, minute)` of an absolute minute timestamp, as
`strftime` renders the `datetime`'s hour and minute fields. -/
def clockOf (t : Nat) : Nat × Nat := (t % 1440 / 60, t % 1440 % 60)

/-- Two-digit zero-padded decimal rendering, as `%H` / `%M` produce. -/
def twoDigits (n : Nat) : List Char := [Nat.digitChar (n / 10), Nat.digitChar (n % 10)]

/-- Characters of `HH:MM` for one clock time. -/
def encTime (t : Nat × Nat) : List Char := twoDigits t.1 ++ ':' :: twoDigits t.2

/-- Characters of `HH:MM-HH:MM` for one interval's clock-time pair. -/
def encPair (p : (Nat × Nat) × (Nat × Nat)) : List Char :=
  encTime p.1 ++ '-' :: encTime p.2

/-- Tail of the `"|".join`: a `|` separator before each further interval. -/
def sepChars : List ((Nat × Nat) × (Nat × Nat)) → List Char
  | [] => []
  | p :: ps => '|' :: (encPair p ++ sepChars ps)

/-- Characters of the joined signature string. -/
def sigChars : List ((Nat × Nat) × (Nat × Nat)) → List Char
  | [] => []
  | p :: ps => encPair p ++ sepChars ps

/-- `main.py` `get_intervals_signature`: render each interval of the sorted
list as `HH:MM-HH:MM` from the clock times of its endpoints and join the
renderings with `"|"`. -/
def get_intervals_signature (intervals : List (Nat × Nat)) : String :=
  ⟨sigChars (intervals.map fun p => (clockOf p.1, clockOf p.2))⟩

/-- A clock time as `strftime` renders it: hour below 24, minute below 60. -/
def validClock (t : Nat × Nat) : Prop := t.1 < 24 ∧ t.2 < 60

/-- Both endpoints of a rendered interval are clock times. -/
def validPair (p : (Nat × Nat) × (Nat × Nat)) : Prop := validClock p.1 ∧ validClock p.2

/-! ## Schedule state classification (`main.py` lines 360-369) -/

/-- Generic association-list lookup mirroring Python `dict.get`. -/
def lookupA {α : Type} : List (String × α) → String → Option α
  | [], _ => none
  | (k, v) :: rest, key => if k = key then some v else lookupA rest key

/-- Python `dict` assignment: replace the value at the key or append. -/
def setA {α : Type} : List (String × α) → String → α → List (String × α)
  | [], k, v => [(k, v)]
  | (k', v') :: rest, k, v =>
    if k' = k then (k, v) :: rest else (k', v') :: setA rest k v

/-- Numeric value of an ASCII digit character. -/
def digitVal (c : Char) : Nat := c.toNat - 48

/-- ASCII digit test, as the regex `\d` matches in the schedule text. -/
def isDigitCh (c : Char) : Bool := decide ('0' ≤ c) && decide (c ≤ '9')

/-- One attempted match of `з HH:MM до HH:MM` at the head of the text,
returning the two literals and the remaining text on success. -/
def matchRangeAt : List Char → Option ((TimeLit × TimeLit) × List Char)
  | 'з' :: ' ' :: h1 :: h2 :: ':' :: m1 :: m2 :: ' ' :: 'д' :: 'о' :: ' ' ::
      h3 :: h4 :: ':' :: m3 :: m4 :: rest =>
    if isDigitCh h1 && isDigitCh h2 && isDigitCh m1 && isDigitCh m2 &&
        isDigitCh h3 && isDigitCh h4 && isDigitCh m3 && isDigitCh m4 then
      some ((⟨digitVal h1 * 10 + digitVal h2, digitVal m1 * 10 + digitVal m2⟩,
             ⟨digitVal h3 * 10 + digitVal h4, digitVal m3 * 10 + digitVal m4⟩), rest)
    else none
  | _ => none

/-- `re.findall` for the interval pattern: scan left to right, record each
non-overlapping match and resume after it.  The fuel argument bounds the
scan by the text length; every step consumes at least one character, so
starting with the full length never exhausts it. -/
def findRangesFuel : Nat → List Char → List (TimeLit × TimeLit)
  | 0, _ => []
  | _, [] => []
  | fuel + 1, c :: rest =>
    match matchRangeAt (c :: rest) with
    | some (r, tail) => r :: findRangesFuel fuel tail
    | none => findRangesFuel fuel rest

/-- `re.findall(r"з (\d\d:\d\d) до (\d\d:\d\d)", raw_intervals)` over one
group's section text. -/
def extract_time_ranges (section_text : String) : List (TimeLit × TimeLit) :=
  findRangesFuel section_text.data.length section_text.data

/-- Per-(date, group) classification outcome displayed by `main`. -/
inductive Status where
  | Unchanged
  | New
  | Changed
deriving DecidableEq, Repr

/-- Previous state of `schedule_state.json` as `main` reads it. -/
structure ScheduleState where
  dates : List String
  groups : List (String × List (String × String))

/-- Chained `dict.get` with empty-dict and empty-string defaults: the
previously stored signature for this group and date, `""` when absent. -/
def prevSigOf (st : ScheduleState) (group date : String) : String :=
  (lookupA ((lookupA st.groups group).getD []) date).getD ""

/-- `main.py` lines 360-369: status is `Без змін` (Unchanged) unless the date
is absent from the previous `dates` (New) or the previous signature string,
defaulting to `""`, differs from the fresh one (Changed). -/
def classifyStatus (st : ScheduleState) (group date sig : String) : Status :=
  if ¬ (date ∈ st.dates) then Status.New
  else if prevSigOf st group date ≠ sig then Status.Changed
  else Status.Unchanged

/-! ## Timeline builder: complement intervals (`main.py` lines 180-194) -/

/-- The `for b_start, b_end in blackout_intervals` loop of
`generate_events_for_group`: emit the gap before each blackout past the
cursor, advance the cursor to `max(cursor, b_end)`, and emit the remaining
gap to day end. -/
def posLoop (dayEnd : Nat) : List (Nat × Nat) → Nat → List (Nat × Nat)
  | [], cur => if cur < dayEnd then [(cur, dayEnd)] else []
  | (s, e) :: bs, cur =>
    (if cur < s then [(cur, s)] else []) ++ posLoop dayEnd bs (max cur e)

/-- The positive ("power available") events generated for one day, starting
the cursor at `day_start`. -/
def positive_events (dayStart dayEnd : Nat) (bs : List (Nat × Nat)) : List (Nat × Nat) :=
  posLoop dayEnd bs dayStart

/-- Number of intervals of `l` that contain minute `t` (half-open). -/
def coverCount (l : List (Nat × Nat)) (t : Nat) : Nat :=
  l.countP fun p => decide (p.1 ≤ t ∧ t < p.2)

/-! ## Timeline builder: 48-slot occupancy (`main.py` lines 101-114) -/

/-- The `hour` field of the `datetime` at absolute minute `t`. -/
def dtHour (t : Nat) : Nat := t % 1440 / 60

/-- The `minute` field of the `datetime` at absolute minute `t`. -/
def dtMinute (t : Nat) : Nat := t % 1440 % 60

/-- The civil-day index of the `datetime` at absolute minute `t`. -/
def dtDay (t : Nat) : Nat := t / 1440

/-- `hour * 2 + (1 if minute >= 30 else 0)`, used for both interval ends. -/
def slotIdx (t : Nat) : Nat := dtHour t * 2 + (if 30 ≤ dtMinute t then 1 else 0)

/-- The end index of `create_visual_timeline_with_ruler`: `48` when the end
datetime falls on a later day (both day-crossing branches), otherwise the
half-hour index of the end clock time. -/
def slotEndIdx (s e : Nat) : Nat :=
  if dtDay s < dtDay e ∧ (0 < dtHour e ∨ 0 < dtMinute e) then 48
  else if dtHour e = 0 ∧ dtMinute e = 0 ∧ dtDay s < dtDay e then 48
  else slotIdx e

/-- Slot `i` of the 48-slot bar: marked when some interval's
`range(start_idx, min(end_idx, 48))` contains `i`. -/
def create_visual_timeline_slots (bs : List (Nat × Nat)) (i : Nat) : Bool :=
  bs.any fun p => decide (slotIdx p.1 ≤ i) && decide (i < min (slotEndIdx p.1 p.2) 48)

/-! ## Calendar reconciler (`sync_gcal.py`) -/

/-- One event of a group's exported `.ics` file, as `sync_gcal.py` reads it
back: its title, the civil date of its `begin`, and its bounds in minutes. -/
structure LocalEvent where
  name : String
  date : String
  startT : Nat
  endT : Nat
deriving DecidableEq, Repr

/-- One event returned by the remote calendar's list call. -/
structure RemoteEvent where
  id : String
  summary : String
deriving DecidableEq, Repr

/-- A remote operation issued to the calendar service. -/
inductive GOp where
  | listEvents (calendarId date : String)
  | deleteEvent (calendarId eventId : String)
  | insertEvent (calendarId : String) (ev : LocalEvent)
deriving DecidableEq, Repr

/-- Does `pat` match `hay` at its head? -/
def leadMatch : List Char → List Char → Bool
  | [], _ => true
  | _ :: _, [] => false
  | a :: as, b :: bs => a = b && leadMatch as bs

/-- Does `pat` occur contiguously anywhere in `hay` (Python `in`)? -/
def seqContains (hay pat : List Char) : Bool :=
  match hay with
  | [] => pat.isEmpty
  | _ :: t => leadMatch pat hay || seqContains t pat

/-- Python substring test `pat in hay` on strings. -/
def strContains (hay pat : String) : Bool := seqContains hay.data pat.data

/-- The external world as `sync_gcal.py` observes it: the per-group parsed
`.ics` contents, the remote list responses (`none` models an `HttpError`),
and the per-operation success of the batched calls.  The last field records
how the remote service treats each operation; the program receives the
outcomes only through its logging callback. -/
structure Env where
  icsEvents : String → List LocalEvent
  listResult : String → String → Option (List RemoteEvent)
  opFails : GOp → Bool

/-- `sync_gcal.py` `get_local_events`: events of the group's `.ics` file
whose name contains the blackout marker. -/
def get_local_events (env : Env) (group_id : String) : List LocalEvent :=
  (env.icsEvents group_id).filter fun e => strContains e.name "Нема світла"

/-- `sync_gcal.py` `clear_existing_blackouts_batch` as the operations it
issues: the list call, then — unless the list call failed or matched
nothing — one delete per event whose summary carries this group's tag. -/
def clear_existing_blackouts_batch (env : Env) (calendar_id date_str group_id : String) :
    List GOp :=
  let listOp := GOp.listEvents calendar_id date_str
  match env.listResult calendar_id date_str with
  | none => [listOp]
  | some events =>
    let toDelete := events.filter fun e =>
      strContains e.summary ("(Гр. " ++ group_id ++ ")")
    listOp :: toDelete.map fun e => GOp.deleteEvent calendar_id e.id

/-- `sync_gcal.py` `insert_events_batch`: one insert per event. -/
def insert_events_batch (calendar_id : String) (events : List LocalEvent) : List GOp :=
  events.map fun e => GOp.insertEvent calendar_id e

/-- Result of `process_group_date`: its return value, the group's mutated
`sync_state` entry, and the remote operations it issued. -/
structure ProcResult where
  changed : Bool
  syncedDates : List (String × String)
  ops : List GOp
deriving DecidableEq, Repr

/-- `sync_gcal.py` `process_group_date`: skip when the stored signature
equals the fresh one; otherwise list and delete this group's tagged remote
events, insert the day's local blackout events, and store the fresh
signature — the outcomes of the issued operations are never consulted. -/
def process_group_date (env : Env) (group_id calendar_id date_str current_signature : String)
    (last_synced_data : List (String × String)) : ProcResult :=
  let synced_sig := lookupA last_synced_data date_str
  if synced_sig = some current_signature then
    ⟨false, last_synced_data, []⟩
  else
    let local_events := get_local_events env group_id
    let day_events := local_events.filter fun e => e.date = date_str
    let delOps := clear_existing_blackouts_batch env calendar_id date_str group_id
    let insOps := insert_events_batch calendar_id day_events
    ⟨true, setA last_synced_data date_str current_signature, delOps ++ insOps⟩

/-- `sync_gcal.py` `sync_all` inner loop: the signature passed for a
(group, date) pair is the schedule state's entry, defaulting to `""`. -/
def signatureFor (st : ScheduleState) (group_id date_str : String) : String :=
  (lookupA ((lookupA st.groups group_id).getD []) date_str).getD ""

/-- The `for date_str in available_dates` loop of `sync_all` for one
configured group: runs `process_group_date` on every date, threading the
group's `sync_state` entry and accumulating issued operations. -/
def syncGroupDates (env : Env) (group_id calendar_id : String) (st : ScheduleState)
    (syncGroup : List (String × String)) : Bool × List (String × String) × List GOp :=
  st.dates.foldl
    (fun acc date_str =>
      let r := process_group_date env group_id calendar_id date_str
        (signatureFor st group_id date_str) acc.2.1
      (acc.1 || r.changed, r.syncedDates, acc.2.2 ++ r.ops))
    (false, syncGroup, [])

/-- A concrete environment in which the remote service fails every batched
operation: the list call finds one tagged event, and every delete and
insert the program issues is rejected. -/
def envAllFail : Env where
  icsEvents _ := [⟨"🌑 Нема світла", "2024-01-10", 840, 960⟩]
  listResult _ _ := some [⟨"ev1", "🌑 Нема світла (Гр. 1.1)"⟩]
  opFails _ := true

/-- A concrete quiet environment: empty local files, empty remote days,
every operation succeeding. -/
def envQuiet : Env where
  icsEvents _ := []
  listResult _ _ := some []
  opFails _ := false

/-! # Theorems -/

/-- Looking up a key just stored by `setA` returns the stored value. -/
theorem lookupA_setA_self {α : Type} (m : List (String × α)) (k : String) (v : α) :
    lookupA (setA m k v) k = some v := by
  induction m with
  | nil => simp [setA, lookupA]
  | cons hd tl ih =>
    obtain ⟨k', v'⟩ := hd
    by_cases h : k' = k
    · simp [setA, h, lookupA]
    · simp [setA, h, lookupA, ih]

/-- The delete phase always issues at least its list call. -/
theorem clear_batch_ne_nil (env : Env) (cal d g : String) :
    clear_existing_blackouts_batch env cal d g ≠ [] := by
  unfold clear_existing_blackouts_batch
  cases env.listResult cal d <;> simp

/-- C2 (counterexample): with previous state whose `dates` contain
`2024-01-10` but whose `groups` store no signature for group `1.1` on that
date, classification of the empty fresh signature returns `Unchanged`, not
`Changed` — refuting "a missing prior signature for a known date counts as
differing for every new signature including the empty one". -/
theorem C2_counterexample :
    lookupA ((lookupA (ScheduleState.mk ["2024-01-10"] []).groups "1.1").getD [])
        "2024-01-10" = none ∧
    "2024-01-10" ∈ (ScheduleState.mk ["2024-01-10"] []).dates ∧
    classifyStatus ⟨["2024-01-10"], []⟩ "1.1" "2024-01-10" "" = Status.Unchanged := by
  refine ⟨rfl, by decide, rfl⟩

/-- C2 (amended): classification returns `New` exactly when the date is
absent from the previous `dates`; for a known date it compares the fresh
signature against the previously stored one with a missing prior signature
defaulting to the empty string — so a missing prior counts as differing
exactly for nonempty fresh signatures. -/
theorem C2_classify_characterization (st : ScheduleState) (group date sig : String) :
    (classifyStatus st group date sig = Status.New ↔ date ∉ st.dates) ∧
    (classifyStatus st group date sig = Status.Changed ↔
      date ∈ st.dates ∧ prevSigOf st group date ≠ sig) ∧
    (classifyStatus st group date sig = Status.Unchanged ↔
      date ∈ st.dates ∧ prevSigOf st group date = sig) := by
  unfold classifyStatus
  split_ifs with h1 h2 <;> simp_all

/-- C3 (counterexample): for the pair `10:00`→`10:00` (end clock-time equal
to, hence less than or equal to, the start clock-time) the resolved end is
the naive same-day combination — not one day later — and the resolved end
is not strictly after the resolved start. -/
theorem C3_counterexample :
    validTL ⟨10, 0⟩ ∧
    (resolveInterval 0 ⟨10, 0⟩ ⟨10, 0⟩).2 ≠ naiveCombine 0 ⟨10, 0⟩ + 1440 ∧
    ¬ (resolveInterval 0 ⟨10, 0⟩ ⟨10, 0⟩).1 < (resolveInterval 0 ⟨10, 0⟩ ⟨10, 0⟩).2 := by
  refine ⟨by decide, by decide, by decide⟩

/-- C3 (amended): for every pair of valid non-`24:00` clock-time literals
whose end clock-time is strictly less than the start clock-time, the
resolved end is exactly one day after the naive same-day combination of the
date and the end clock-time, and the resolved end is strictly after the
resolved start. -/
theorem C3_overnight_wrap (d : Nat) (s e : TimeLit)
    (hsh : s.h < 24) (hsm : s.m < 60) (heh : e.h < 24) (hem : e.m < 60)
    (hlt : e.h * 60 + e.m < s.h * 60 + s.m) :
    (resolveInterval d s e).2 = naiveCombine d e + 1440 ∧
    (resolveInterval d s e).1 < (resolveInterval d s e).2 := by
  simp only [resolveInterval, parse_time_aware, naiveCombine]
  split_ifs <;> simp_all <;> omega

/-- C3 (witness). -/
theorem C3_overnight_wrap_witness :
    (resolveInterval 0 ⟨12, 0⟩ ⟨11, 0⟩).2 = naiveCombine 0 ⟨11, 0⟩ + 1440 ∧
    (resolveInterval 0 ⟨12, 0⟩ ⟨11, 0⟩).1 < (resolveInterval 0 ⟨12, 0⟩ ⟨11, 0⟩).2 :=
  C3_overnight_wrap 0 ⟨12, 0⟩ ⟨11, 0⟩ (by decide) (by decide) (by decide) (by decide)
    (by decide)

/-- C7: the literal `24:00` resolves to midnight of the day after the
target date; every other valid literal resolves within the target date; and
an interval whose end is `24:00`-derived is never additionally advanced by
the overnight-wrap rule — its resolved end is exactly the next midnight for
every valid start literal. -/
theorem C7_midnight_literal (d : Nat) (t s : TimeLit)
    (ht : validTL t) (htne : ¬ (t.h = 24 ∧ t.m = 0)) (hs : validTL s) :
    parse_time_aware d ⟨24, 0⟩ = (d + 1) * 1440 ∧
    (d * 1440 ≤ parse_time_aware d t ∧ parse_time_aware d t < (d + 1) * 1440) ∧
    (resolveInterval d s ⟨24, 0⟩).2 = (d + 1) * 1440 := by
  unfold validTL at ht hs
  simp only [resolveInterval, parse_time_aware]
  split_ifs <;> simp_all <;> omega

/-- C7 (witness). -/
theorem C7_midnight_literal_witness :
    parse_time_aware 5 ⟨24, 0⟩ = 6 * 1440 ∧
    (5 * 1440 ≤ parse_time_aware 5 ⟨14, 30⟩ ∧ parse_time_aware 5 ⟨14, 30⟩ < 6 * 1440) ∧
    (resolveInterval 5 ⟨14, 30⟩ ⟨24, 0⟩).2 = 6 * 1440 :=
  C7_midnight_literal 5 ⟨14, 30⟩ ⟨14, 30⟩ (by decide) (by decide) (by decide)

/-- C10: the section text `з 12:00 до 11:00 з 12:00 до 11:00` yields two
extracted intervals, each wrapped past midnight; the total blackout
duration is 165600 seconds, exceeding 86400, and `percent_off` exceeds
100 — neither quantity is clamped to the length of the day. -/
theorem C10_percent_unclamped :
    extract_time_ranges "з 12:00 до 11:00 з 12:00 до 11:00" =
      [(⟨12, 0⟩, ⟨11, 0⟩), (⟨12, 0⟩, ⟨11, 0⟩)] ∧
    totalOffSeconds 0 (extract_time_ranges "з 12:00 до 11:00 з 12:00 до 11:00") = 165600 ∧
    86400 < totalOffSeconds 0 (extract_time_ranges "з 12:00 до 11:00 з 12:00 до 11:00") ∧
    (100 : ℚ) < percent_off 0 (extract_time_ranges "з 12:00 до 11:00 з 12:00 до 11:00") := by
  refine ⟨by decide, by decide, by decide, ?_⟩
  have h : extract_time_ranges "з 12:00 до 11:00 з 12:00 до 11:00" =
      [(⟨12, 0⟩, ⟨11, 0⟩), (⟨12, 0⟩, ⟨11, 0⟩)] := by decide
  rw [percent_off, h]
  norm_num [totalOffSeconds, resolveInterval, parse_time_aware]

/-- C1 (counterexample): a concrete run in which the remote service rejects
every issued operation — the batch fully fails — yet `process_group_date`
still records the fresh signature in the `SyncState` entry, so the pair is
not retried on the next run. -/
theorem C1_counterexample :
    (process_group_date envAllFail "1.1" "cal" "2024-01-10" "14:00-16:00"
        [("2024-01-10", "10:00-12:00")]).ops ≠ [] ∧
    (∀ op ∈ (process_group_date envAllFail "1.1" "cal" "2024-01-10" "14:00-16:00"
        [("2024-01-10", "10:00-12:00")]).ops, envAllFail.opFails op = true) ∧
    lookupA (process_group_date envAllFail "1.1" "cal" "2024-01-10" "14:00-16:00"
        [("2024-01-10", "10:00-12:00")]).syncedDates "2024-01-10" =
      some "14:00-16:00" := by
  refine ⟨by decide, by decide, by decide⟩

/-- C1 (amended): whenever the stored signature differs from the fresh one,
`process_group_date` updates the `SyncState` entry to the fresh signature
after issuing the delete and insert batches, regardless of the outcome of
every issued operation — the per-operation outcomes are never consulted, so
even a fully failed batch updates `SyncState` and the pair is not retried. -/
theorem C1_syncstate_update_ignores_outcomes (env : Env) (g cal d sig : String)
    (m : List (String × String)) (h : lookupA m d ≠ some sig) :
    (process_group_date env g cal d sig m).changed = true ∧
    (process_group_date env g cal d sig m).syncedDates = setA m d sig ∧
    lookupA (process_group_date env g cal d sig m).syncedDates d = some sig ∧
    ∀ f, process_group_date { env with opFails := f } g cal d sig m =
      process_group_date env g cal d sig m := by
  refine ⟨?_, ?_, ?_, fun f => rfl⟩ <;>
    simp [process_group_date, h, lookupA_setA_self]

/-- C1 (witness). -/
theorem C1_syncstate_update_ignores_outcomes_witness :
    (process_group_date envQuiet "1.1" "cal" "2024-01-10" "14:00-16:00" []).changed = true ∧
    (process_group_date envQuiet "1.1" "cal" "2024-01-10" "14:00-16:00" []).syncedDates =
      setA [] "2024-01-10" "14:00-16:00" ∧
    lookupA (process_group_date envQuiet "1.1" "cal" "2024-01-10" "14:00-16:00"
        []).syncedDates "2024-01-10" = some "14:00-16:00" ∧
    ∀ f, process_group_date { envQuiet with opFails := f } "1.1" "cal" "2024-01-10"
        "14:00-16:00" [] =
      process_group_date envQuiet "1.1" "cal" "2024-01-10" "14:00-16:00" [] :=
  C1_syncstate_update_ignores_outcomes envQuiet "1.1" "cal" "2024-01-10" "14:00-16:00" []
    (by decide)

/-- C4: when the stored `SyncState` signature equals the fresh one,
`process_group_date` returns immediately — no list, delete or insert
operation and an unchanged `SyncState` entry; consequently a second run
with the same fresh signature issues no remote operation whatever the
first run did (`Synced` is a fixed point). -/
theorem C4_synced_fixed_point (env env2 : Env) (g cal d sig : String)
    (m : List (String × String)) :
    (lookupA m d = some sig →
      process_group_date env g cal d sig m = ⟨false, m, []⟩) ∧
    process_group_date env2 g cal d sig
        (process_group_date env g cal d sig m).syncedDates =
      ⟨false, (process_group_date env g cal d sig m).syncedDates, []⟩ := by
  constructor
  · intro h
    simp [process_group_date, h]
  · by_cases h : lookupA m d = some sig
    · simp [process_group_date, h]
    · simp [process_group_date, h, lookupA_setA_self]

/-- C4 (witness). -/
theorem C4_synced_fixed_point_witness :
    (lookupA [("2024-01-10", "14:00-16:00")] "2024-01-10" = some "14:00-16:00" →
      process_group_date envQuiet "1.1" "cal" "2024-01-10" "14:00-16:00"
          [("2024-01-10", "14:00-16:00")] =
        ⟨false, [("2024-01-10", "14:00-16:00")], []⟩) ∧
    process_group_date envQuiet "1.1" "cal" "2024-01-10" "14:00-16:00"
        (process_group_date envQuiet "1.1" "cal" "2024-01-10" "14:00-16:00"
          [("2024-01-10", "14:00-16:00")]).syncedDates =
      ⟨false, (process_group_date envQuiet "1.1" "cal" "2024-01-10" "14:00-16:00"
          [("2024-01-10", "14:00-16:00")]).syncedDates, []⟩ :=
  C4_synced_fixed_point envQuiet envQuiet "1.1" "cal" "2024-01-10" "14:00-16:00"
    [("2024-01-10", "14:00-16:00")]

/-- C9 (counterexample): a configured group absent from the freshly parsed
schedule is not skipped and produces no warning value: the `sync_all` loop
runs it with the default empty signature, issues a remote list operation,
and records the empty signature in `SyncState` — refuting "reported as a
configuration warning and skipped, issuing no remote operations and not
updating SyncState". -/
theorem C9_counterexample :
    lookupA (ScheduleState.mk ["2024-01-10"] []).groups "9.9" = none ∧
    (syncGroupDates envQuiet "9.9" "cal" ⟨["2024-01-10"], []⟩ []).2.2 ≠ [] ∧
    (syncGroupDates envQuiet "9.9" "cal" ⟨["2024-01-10"], []⟩ []).2.1 =
      [("2024-01-10", "")] := by
  refine ⟨rfl, by decide, by decide⟩

/-- C9 (amended): for a configured group with no entry in the freshly
parsed schedule, the loop passes the empty signature `""` for every date —
the pair is treated exactly like an empty ("no outage") schedule: unless
the pair was already synchronized with the empty signature, remote
operations are issued and its `SyncState` entry is set to `""`. -/
theorem C9_missing_group_empty_signature (env : Env) (st : ScheduleState)
    (g cal d : String) (m : List (String × String))
    (hg : lookupA st.groups g = none) (hm : lookupA m d ≠ some "") :
    signatureFor st g d = "" ∧
    (process_group_date env g cal d (signatureFor st g d) m).changed = true ∧
    (process_group_date env g cal d (signatureFor st g d) m).ops ≠ [] ∧
    lookupA (process_group_date env g cal d (signatureFor st g d) m).syncedDates d =
      some "" := by
  have hsig : signatureFor st g d = "" := by
    simp [signatureFor, hg, lookupA]
  rw [hsig]
  refine ⟨rfl, ?_, ?_, ?_⟩
  · simp [process_group_date, hm]
  · simp only [process_group_date, hm, if_neg]
    intro hcontra
    exact clear_batch_ne_nil env cal d g (List.append_eq_nil.mp hcontra).1
  · simp [process_group_date, hm, lookupA_setA_self]

/-- C9 (witness). -/
theorem C9_missing_group_empty_signature_witness :
    signatureFor ⟨["2024-01-10"], []⟩ "9.9" "2024-01-10" = "" ∧
    (process_group_date envQuiet "9.9" "cal" "2024-01-10"
        (signatureFor ⟨["2024-01-10"], []⟩ "9.9" "2024-01-10") []).changed = true ∧
    (process_group_date envQuiet "9.9" "cal" "2024-01-10"
        (signatureFor ⟨["2024-01-10"], []⟩ "9.9" "2024-01-10") []).ops ≠ [] ∧
    lookupA (process_group_date envQuiet "9.9" "cal" "2024-01-10"
        (signatureFor ⟨["2024-01-10"], []⟩ "9.9" "2024-01-10") []).syncedDates
        "2024-01-10" = some "" :=
  C9_missing_group_empty_signature envQuiet ⟨["2024-01-10"], []⟩ "9.9" "cal" "2024-01-10"
    [] (by decide) (by decide)

/-- `Nat.digitChar` is injective on single digits. -/
theorem digitChar_inj_small :
    ∀ a < 10, ∀ b < 10, Nat.digitChar a = Nat.digitChar b → a = b := by decide

/-- Each rendered interval occupies exactly eleven characters. -/
theorem encPair_length (p : (Nat × Nat) × (Nat × Nat)) : (encPair p).length = 11 := rfl

/-- Two-digit zero-padded rendering is injective below 100. -/
theorem twoDigits_inj {a b : Nat} (ha : a < 100) (hb : b < 100)
    (h : twoDigits a = twoDigits b) : a = b := by
  simp only [twoDigits, List.cons.injEq, and_true] at h
  obtain ⟨h1, h2⟩ := h
  have d1 := digitChar_inj_small (a / 10) (by omega) (b / 10) (by omega) h1
  have d2 := digitChar_inj_small (a % 10) (by omega) (b % 10) (by omega) h2
  omega

/-- Rendering a clock time as `HH:MM` is injective. -/
theorem encTime_inj {s t : Nat × Nat} (hs : validClock s) (ht : validClock t)
    (h : encTime s = encTime t) : s = t := by
  obtain ⟨hs1, hs2⟩ := hs
  obtain ⟨ht1, ht2⟩ := ht
  unfold encTime at h
  obtain ⟨h1, h2⟩ := List.append_inj h rfl
  simp only [List.cons.injEq, true_and] at h2
  have e1 := twoDigits_inj (by omega) (by omega) h1
  have e2 := twoDigits_inj (by omega) (by omega) h2
  exact Prod.ext e1 e2

/-- Rendering an interval as `HH:MM-HH:MM` is injective on clock times. -/
theorem encPair_inj {p q : (Nat × Nat) × (Nat × Nat)}
    (hp : validPair p) (hq : validPair q) (h : encPair p = encPair q) : p = q := by
  unfold encPair at h
  obtain ⟨h1, h2⟩ := List.append_inj h rfl
  simp only [List.cons.injEq, true_and] at h2
  exact Prod.ext (encTime_inj hp.1 hq.1 h1) (encTime_inj hp.2 hq.2 h2)

/-- The separated tail of the join determines its interval list. -/
theorem sepChars_inj :
    ∀ l1 l2 : List ((Nat × Nat) × (Nat × Nat)), (∀ p ∈ l1, validPair p) →
      (∀ p ∈ l2, validPair p) → sepChars l1 = sepChars l2 → l1 = l2 := by
  intro l1
  induction l1 with
  | nil =>
    intro l2 _ _ h
    cases l2 with
    | nil => rfl
    | cons q qs => simp [sepChars] at h
  | cons p ps ih =>
    intro l2 h1 h2 h
    cases l2 with
    | nil => simp [sepChars] at h
    | cons q qs =>
      simp only [sepChars, List.cons.injEq, true_and] at h
      obtain ⟨hpq, hrest⟩ := List.append_inj h (by rw [encPair_length, encPair_length])
      have hp := encPair_inj (h1 p (by simp)) (h2 q (by simp)) hpq
      have ht := ih qs (fun r hr => h1 r (by simp [hr])) (fun r hr => h2 r (by simp [hr]))
        hrest
      rw [hp, ht]

/-- The joined signature characters determine the interval list. -/
theorem sigChars_inj :
    ∀ l1 l2 : List ((Nat × Nat) × (Nat × Nat)), (∀ p ∈ l1, validPair p) →
      (∀ p ∈ l2, validPair p) → sigChars l1 = sigChars l2 → l1 = l2 := by
  intro l1 l2 h1 h2 h
  cases l1 with
  | nil =>
    cases l2 with
    | nil => rfl
    | cons q qs =>
      have := congrArg List.length h
      simp only [sigChars, List.length_nil, List.length_append, encPair_length] at this
      omega
  | cons p ps =>
    cases l2 with
    | nil =>
      have := congrArg List.length h
      simp only [sigChars, List.length_nil, List.length_append, encPair_length] at this
      omega
    | cons q qs =>
      simp only [sigChars] at h
      obtain ⟨hpq, hrest⟩ := List.append_inj h (by rw [encPair_length, encPair_length])
      have hp := encPair_inj (h1 p (by simp)) (h2 q (by simp)) hpq
      have ht := sepChars_inj ps qs (fun r hr => h1 r (by simp [hr]))
        (fun r hr => h2 r (by simp [hr])) hrest
      rw [hp, ht]

/-- The clock time extracted from any timestamp is a valid clock time. -/
theorem validClock_clockOf (t : Nat) : validClock (clockOf t) := by
  unfold validClock clockOf
  omega

/-- C5: the signature of the empty sequence is the empty string, and two
interval sequences have the same signature exactly when they are equal as
ordered sequences of (start, end) clock-time pairs — so any difference in
interval count, order, or any boundary minute yields a different signature,
and sequences equal as clock-time pairs yield identical signatures. -/
theorem C5_signature_characterizes_clock_pairs (l1 l2 : List (Nat × Nat)) :
    get_intervals_signature [] = "" ∧
    (get_intervals_signature l1 = get_intervals_signature l2 ↔
      l1.map (fun p => (clockOf p.1, clockOf p.2)) =
        l2.map (fun p => (clockOf p.1, clockOf p.2))) := by
  refine ⟨rfl, ?_, ?_⟩
  · intro h
    have h' := congrArg String.data h
    simp only [get_intervals_signature] at h'
    refine sigChars_inj _ _ ?_ ?_ h' <;>
    · intro r hr
      simp only [List.mem_map] at hr
      obtain ⟨x, -, hx⟩ := hr
      rw [← hx]
      exact ⟨validClock_clockOf _, validClock_clockOf _⟩
  · intro h
    simp only [get_intervals_signature, h]

/-- Cover counts add across list concatenation. -/
theorem coverCount_append (l1 l2 : List (Nat × Nat)) (t : Nat) :
    coverCount (l1 ++ l2) t = coverCount l1 t + coverCount l2 t := by
  unfold coverCount
  rw [List.countP_append]

/-- A minute below every start of a list is covered by none of it. -/
theorem coverCount_zero {l : List (Nat × Nat)} {t : Nat} (h : ∀ p ∈ l, t < p.1) :
    coverCount l t = 0 := by
  unfold coverCount
  rw [List.countP_eq_zero]
  intro p hp
  have := h p hp
  simp only [decide_eq_true_eq]
  omega

/-- Every interval emitted by the complement loop starts at or after the
cursor. -/
theorem posLoop_start_ge (dayEnd : Nat) (bs : List (Nat × Nat)) :
    ∀ cur, ∀ p ∈ posLoop dayEnd bs cur, cur ≤ p.1 := by
  induction bs with
  | nil =>
    intro cur p hp
    unfold posLoop at hp
    split at hp
    · rw [List.mem_singleton] at hp
      rw [hp]
    · simp at hp
  | cons hd tl ih =>
    intro cur p hp
    obtain ⟨s, e⟩ := hd
    unfold posLoop at hp
    rw [List.mem_append] at hp
    rcases hp with hp | hp
    · split at hp
      · rw [List.mem_singleton] at hp
        rw [hp]
      · simp at hp
    · exact le_trans (le_max_left _ _) (ih (max cur e) p hp)

/-- Every interval emitted by the complement loop has positive length:
zero-length gaps produce no interval. -/
theorem posLoop_pos (dayEnd : Nat) (bs : List (Nat × Nat)) :
    ∀ cur, ∀ p ∈ posLoop dayEnd bs cur, p.1 < p.2 := by
  induction bs with
  | nil =>
    intro cur p hp
    unfold posLoop at hp
    split at hp
    · rw [List.mem_singleton] at hp
      rw [hp]
      assumption
    · simp at hp
  | cons hd tl ih =>
    intro cur p hp
    obtain ⟨s, e⟩ := hd
    unfold posLoop at hp
    rw [List.mem_append] at hp
    rcases hp with hp | hp
    · split at hp
      · rw [List.mem_singleton] at hp
        rw [hp]
        assumption
      · simp at hp
    · exact ih (max cur e) p hp

/-- Partition invariant of the complement loop: starting from a cursor at
or below every remaining blackout start, each minute between the cursor and
day end is covered exactly once by the blackouts plus the emitted gaps. -/
theorem posLoop_cover (dayEnd : Nat) (bs : List (Nat × Nat)) :
    ∀ cur t, bs.Pairwise (fun p q => p.2 ≤ q.1) → (∀ p ∈ bs, p.1 < p.2) →
      (∀ p ∈ bs, cur ≤ p.1) → cur ≤ t → t < dayEnd →
      coverCount bs t + coverCount (posLoop dayEnd bs cur) t = 1 := by
  induction bs with
  | nil =>
    intro cur t _ _ _ h1 h2
    have hc : cur < dayEnd := lt_of_le_of_lt h1 h2
    unfold posLoop
    rw [if_pos hc]
    simp [coverCount, List.countP_cons, h1, h2]
  | cons hd tl ih =>
    intro cur t hpw hlt hcur h1 h2
    obtain ⟨s, e⟩ := hd
    rw [List.pairwise_cons] at hpw
    obtain ⟨hpw1, hpw2⟩ := hpw
    have hse : s < e := hlt (s, e) (by simp)
    have hcs : cur ≤ s := hcur (s, e) (by simp)
    have htl_lt : ∀ p ∈ tl, p.1 < p.2 := fun p hp => hlt p (by simp [hp])
    unfold posLoop
    rw [coverCount_append]
    have hcons : coverCount ((s, e) :: tl) t =
        (if s ≤ t ∧ t < e then 1 else 0) + coverCount tl t := by
      unfold coverCount
      rw [List.countP_cons]
      simp only [decide_eq_true_eq]
      omega
    have hgap : coverCount (if cur < s then [(cur, s)] else []) t =
        if cur ≤ t ∧ t < s then 1 else 0 := by
      by_cases hc : cur < s
      · rw [if_pos hc]
        simp [coverCount, List.countP_cons]
      · rw [if_neg hc, if_neg (by omega)]
        simp [coverCount]
    by_cases hte : t < e
    · have hpos0 : coverCount (posLoop dayEnd tl (max cur e)) t = 0 := coverCount_zero (by
        intro p hp
        have h3 := posLoop_start_ge dayEnd tl (max cur e) p hp
        have h4 := le_max_right cur e
        omega)
      have htl0 : coverCount tl t = 0 := coverCount_zero (by
        intro p hp
        have := hpw1 p hp
        omega)
      rw [hcons, hgap, hpos0, htl0]
      by_cases hts : t < s
      · rw [if_neg (by omega), if_pos ⟨h1, hts⟩]
      · rw [if_pos ⟨by omega, hte⟩, if_neg (by omega)]
    · have hrec := ih (max cur e) t hpw2 htl_lt
        (fun p hp => max_le (hcur p (by simp [hp])) (hpw1 p hp))
        (max_le h1 (by omega)) h2
      rw [hcons, hgap, if_neg (by omega), if_neg (by omega)]
      omega

/-- C6: for every non-overlapping start-sorted blackout interval sequence
for one day, each minute of the window from day start to day start plus 24
hours is covered exactly once by the blackout intervals together with the
complement ("power available") intervals — no gaps and no overlaps — and
every emitted complement interval has positive length, so zero-length gaps
produce no interval. -/
theorem C6_complement_partition (dayStart : Nat) (bs : List (Nat × Nat)) (t : Nat)
    (hpw : bs.Pairwise fun p q => p.2 ≤ q.1)
    (hlt : ∀ p ∈ bs, p.1 < p.2)
    (hge : ∀ p ∈ bs, dayStart ≤ p.1)
    (h1 : dayStart ≤ t) (h2 : t < dayStart + 1440) :
    coverCount (bs ++ positive_events dayStart (dayStart + 1440) bs) t = 1 ∧
    ∀ p ∈ positive_events dayStart (dayStart + 1440) bs, p.1 < p.2 := by
  constructor
  · rw [coverCount_append]
    exact posLoop_cover (dayStart + 1440) bs dayStart t hpw hlt hge h1 h2
  · exact posLoop_pos _ _ _

/-- C6 (witness). -/
theorem C6_complement_partition_witness :
    coverCount ([(840, 960)] ++ positive_events 0 (0 + 1440) [(840, 960)]) 900 = 1 ∧
    ∀ p ∈ positive_events 0 (0 + 1440) [(840, 960)], p.1 < p.2 :=
  C6_complement_partition 0 [(840, 960)] 900 (by decide) (by decide) (by decide)
    (by decide) (by decide)

/-- Within the target day the slot index is division by 30 minutes. -/
theorem slotIdx_eq_div (t : Nat) (h : t < 1440) : slotIdx t = t / 30 := by
  unfold slotIdx dtHour dtMinute
  rw [Nat.mod_eq_of_lt h]
  split <;> omega

/-- One interval marks slot `i` exactly when it reaches past the slot's end
boundary minute: its start is before `(i+1) * 30` and its end at or past it. -/
theorem markIdx_iff (s e i : Nat) (hs : s < 1440) (hse : s < e) (he : e ≤ 2880)
    (hi : i < 48) :
    (slotIdx s ≤ i ∧ i < min (slotEndIdx s e) 48) ↔
      s < (i + 1) * 30 ∧ (i + 1) * 30 ≤ e := by
  have hidx := slotIdx_eq_div s hs
  unfold slotEndIdx at *
  unfold slotIdx dtDay dtHour dtMinute at *
  split_ifs <;> omega

/-- C8 (counterexample): the interval `10:05`–`10:20` lies strictly inside
the half-hour slot 20 (covering `10:00`–`10:30`) and intersects it by
fifteen minutes, yet the 48-slot representation leaves slot 20 unmarked —
refuting "a slot is marked exactly when some interval intersects it by at
least one minute". -/
theorem C8_counterexample :
    (605 < (20 + 1) * 30 ∧ 20 * 30 < 620) ∧
    create_visual_timeline_slots [(605, 620)] 20 = false := by
  refine ⟨by decide, by decide⟩

/-- C8 (amended): for intervals starting within the target day and ending
at most a day later, slot `i` is marked exactly when some interval's
`[start, end)` covers the slot's end boundary — `start < (i+1)*30min` and
`(i+1)*30min ≤ end` — i.e. the code rounds the start down to its slot and
the end down to its slot boundary, so overlap of less than the closing
minute of a slot does not mark it. -/
theorem C8_slot_marking (bs : List (Nat × Nat)) (i : Nat) (hi : i < 48)
    (hb : ∀ p ∈ bs, p.1 < 1440 ∧ p.1 < p.2 ∧ p.2 ≤ 2880) :
    create_visual_timeline_slots bs i = true ↔
      ∃ p ∈ bs, p.1 < (i + 1) * 30 ∧ (i + 1) * 30 ≤ p.2 := by
  simp only [create_visual_timeline_slots, List.any_eq_true, Bool.and_eq_true,
    decide_eq_true_eq]
  constructor
  · rintro ⟨p, hp, hc1, hc2⟩
    obtain ⟨h1, h2, h3⟩ := hb p hp
    exact ⟨p, hp, (markIdx_iff p.1 p.2 i h1 h2 h3 hi).mp ⟨hc1, hc2⟩⟩
  · rintro ⟨p, hp, hc⟩
    obtain ⟨h1, h2, h3⟩ := hb p hp
    obtain ⟨hc1, hc2⟩ := (markIdx_iff p.1 p.2 i h1 h2 h3 hi).mpr hc
    exact ⟨p, hp, hc1, hc2⟩

/-- C8 (witness). -/
theorem C8_slot_marking_witness :
    create_visual_timeline_slots [(600, 630)] 20 = true :=
  (C8_slot_marking [(600, 630)] 20 (by decide) (by decide)).mpr
    ⟨(600, 630), by decide, by decide⟩
